import Mathlib

/-!
Verification development for the key-server credential-relay service.

The definitions below are a shallow embedding of the TypeScript source:

* `src/utils/encryption.ts` — the Envelope Cipher (`encryptKey` / `decryptKey`),
  AES-256-GCM with a PBKDF2-derived key.  The external Node `crypto` primitives
  (PBKDF2 key derivation, the GCM keystream of CTR mode, and the GHASH tag) are
  modelled as function parameters bundled in `CryptoPrims`: the embedding keeps
  the exact data flow of the source (fresh salt/iv, hex transport encoding,
  tag recomputation and comparison on decrypt) while the block-cipher internals
  stay abstract.  Plaintexts are byte lists; the UTF-8 transport codec of
  Node's `cipher.update(key, 'utf8', 'hex')` is elided.
* `src/middleware/appAuth.ts` — the App credential store (`loadApps`,
  `saveApps`, `registerApp`, `validateAppKey`, `checkAppPermission`).  JS
  objects are ordered association lists with unique keys; `Date.now()` values
  are `Nat` timestamps; the fallible `fs.writeFileSync` is a `writeOk : Bool`
  parameter (the catch block of `saveApps` logs and swallows the failure).
* `src/middleware/auth.ts` — the User API-key gate (`validateApiKey`) over the
  JSON mapping parsed from the `VALID_API_KEYS` environment variable.
* `src/routes/auth.ts` — the key-rotation mutation of `POST /rotate-api-key`
  (the part after the credential check).
* `src/routes/keys.ts` and `src/routes/apps.ts` — the key-release routes.
* `scripts/manage-apps.ts` — `revokeApp`.
-/

namespace KeyServer

/-- Bytes of Node `Buffer`s: natural numbers below 256. -/
abbrev Byte := Fin 256

/-- Bytewise XOR, the combining step of CTR-mode (GCM) encryption. -/
def byteXor (a b : Byte) : Byte :=
  ⟨a.val ^^^ b.val, by
    have h : a.val ^^^ b.val < 2 ^ 8 :=
      Nat.xor_lt_two_pow (by norm_num [a.isLt]) (by norm_num [b.isLt])
    norm_num at h
    exact h⟩

/-- Value of one hexadecimal digit character, as accepted by Node's
`Buffer.from(s, 'hex')` (both letter cases), computed from the code point:
48-57 are the decimal digits, 97-102 the lower-case and 65-70 the upper-case
letters. -/
def hexVal (c : Char) : Option (Fin 16) :=
  let n := c.toNat
  if hd : 48 ≤ n ∧ n ≤ 57 then some ⟨n - 48, by omega⟩
  else if hl : 97 ≤ n ∧ n ≤ 102 then some ⟨n - 87, by omega⟩
  else if hu : 65 ≤ n ∧ n ≤ 70 then some ⟨n - 55, by omega⟩
  else none

/-- Lower-case hexadecimal digit for a value below 16, as produced by Node's
`buffer.toString('hex')`: code point 48 + n for the decimal range, 87 + n for
the letter range. -/
def hexDigit (n : Nat) : Char :=
  if n < 10 then Char.ofNat (48 + n) else Char.ofNat (87 + n % 16)

/-- Hex encoding of a byte list (two lower-case digits per byte). -/
def hexEncodeBytes : List Byte → List Char
  | [] => []
  | b :: rest => hexDigit (b.val / 16) :: hexDigit (b.val % 16) :: hexEncodeBytes rest

/-- Hex encoding, packaged as a string (`buffer.toString('hex')`). -/
def hexEncode (l : List Byte) : String := String.mk (hexEncodeBytes l)

/-- Hex parsing of a character list, matching `Buffer.from(s, 'hex')`:
pairs of digits are consumed until an invalid pair or a lone trailing
character stops the scan (Node truncates instead of throwing). -/
def hexPairs : List Char → List Byte
  | c1 :: c2 :: rest =>
    match hexVal c1, hexVal c2 with
    | some hi, some lo =>
        ⟨hi.val * 16 + lo.val, by
          have h1 := hi.isLt
          have h2 := lo.isLt
          omega⟩ :: hexPairs rest
    | _, _ => []
  | _ => []

/-- Hex decoding of a string (`Buffer.from(s, 'hex')`). -/
def hexDecode (s : String) : List Byte := hexPairs s.data

/-- Transport form of one encryption result: the four hex-encoded fields of the
JSON object that `encryptKey` stringifies and `decryptKey` parses back. -/
structure Envelope where
  encrypted : String
  salt : String
  iv : String
  authTag : String
deriving DecidableEq

/-- Abstract cryptographic primitives supplied by Node's `crypto` module:
`pbkdf2` is `crypto.pbkdf2Sync(secret, salt, 100000, 32, 'sha256')`;
`keystream` is the CTR keystream of `aes-256-gcm` for a derived key and iv;
`ghash` is the 16-byte GCM authentication tag of a ciphertext under a derived
key and iv.  All three are deterministic functions, which is all the
structural claims below depend on. -/
structure CryptoPrims where
  pbkdf2 : String → List Byte → List Byte
  keystream : List Byte → List Byte → Nat → Byte
  ghash : List Byte → List Byte → List Byte → List Byte

/-- CTR-mode byte stream combination starting at counter position `i`. -/
def ctrXor (ks : Nat → Byte) : Nat → List Byte → List Byte
  | _, [] => []
  | i, b :: rest => byteXor b (ks i) :: ctrXor ks (i + 1) rest

/-- Embedding of `encryptKey` (src/utils/encryption.ts lines 3-22): derive a
key from the secret and the fresh salt, encrypt the plaintext with AES-256-GCM
under the fresh iv, take the authentication tag, and return the four fields
hex-encoded.  The random `salt` and `iv` and the plaintext bytes are explicit
arguments. -/
def encryptKey (prims : CryptoPrims) (key : List Byte) (secret : String)
    (salt iv : List Byte) : Envelope :=
  let derivedKey := prims.pbkdf2 secret salt
  let encrypted := ctrXor (prims.keystream derivedKey iv) 0 key
  let authTag := prims.ghash derivedKey iv encrypted
  { encrypted := hexEncode encrypted
    salt := hexEncode salt
    iv := hexEncode iv
    authTag := hexEncode authTag }

/-- Failure of `decipher.final()`: GCM authentication-tag verification. -/
inductive DecryptError where
  | authenticationFailure
deriving DecidableEq

/-- Embedding of `decryptKey` (src/utils/encryption.ts lines 24-48): decode the
fields, re-derive the key from the supplied secret and the envelope's salt,
recompute the GCM tag of the ciphertext and compare it with the stored
`authTag` (what `decipher.final()` does after `setAuthTag`); on mismatch the
cipher throws and no plaintext is released, on match the CTR stream recovers
the plaintext. -/
def decryptKey (prims : CryptoPrims) (env : Envelope) (secret : String) :
    Except DecryptError (List Byte) :=
  let salt := hexDecode env.salt
  let iv := hexDecode env.iv
  let encrypted := hexDecode env.encrypted
  let authTag := hexDecode env.authTag
  let derivedKey := prims.pbkdf2 secret salt
  if prims.ghash derivedKey iv encrypted = authTag then
    Except.ok (ctrXor (prims.keystream derivedKey iv) 0 encrypted)
  else
    Except.error DecryptError.authenticationFailure

/-- Per-service access switches of an App (src/types/app.ts). -/
structure Permissions where
  openai : Bool
  anthropic : Bool
deriving DecidableEq

/-- Per-App rate-limit configuration (src/types/app.ts). -/
structure RateLimitCfg where
  windowMs : Nat
  maxRequests : Nat
deriving DecidableEq

/-- Deployment environment tag of an App (src/types/app.ts). -/
inductive Environment where
  | development
  | staging
  | production
deriving DecidableEq

/-- App record (src/types/app.ts).  `Date` values are `Nat` timestamps. -/
structure App where
  id : String
  name : String
  apiKey : String
  permissions : Permissions
  allowedIPs : Option (List String) := none
  allowedDomains : Option (List String) := none
  rateLimit : Option RateLimitCfg := none
  createdAt : Nat := 0
  lastAccess : Option Nat := none
  accessCount : Nat := 0
  environment : Environment := Environment.production
  expiresAt : Option Nat := none
deriving DecidableEq

/-- JS object lookup on an association list (keys are unique by object
construction; lookup takes the first match). -/
def getAssoc {α : Type} (l : List (String × α)) (k : String) : Option α :=
  (l.find? (fun e => e.1 = k)).map (fun e => e.2)

/-- JS object property assignment: replace the entry in place when the key is
present, append otherwise. -/
def setAssoc {α : Type} : List (String × α) → String → α → List (String × α)
  | [], k, v => [(k, v)]
  | (k', v') :: rest, k, v =>
      if k' = k then (k, v) :: rest else (k', v') :: setAssoc rest k v

/-- JS `delete obj[k]`: remove the entry with that key. -/
def delAssoc {α : Type} (l : List (String × α)) (k : String) : List (String × α) :=
  l.filter (fun e => e.1 ≠ k)

/-- Parsed contents of `apps.json` (src/types/app.ts `AppConfig`): the JS
record from API key to App, as an ordered association list. -/
structure AppConfig where
  apps : List (String × App)
deriving DecidableEq

/-- State of the App store module (src/middleware/appAuth.ts lines 16-20):
the durable file contents (`none` when the file is missing or unreadable) and
the in-memory cache with its fill timestamp. -/
structure StoreState where
  file : Option AppConfig
  appsCache : Option AppConfig
  cacheTimestamp : Nat
deriving DecidableEq

/-- Cache TTL of the App store (src/middleware/appAuth.ts line 20). -/
def CACHE_TTL : Nat := 60000

/-- Embedding of `loadApps` (src/middleware/appAuth.ts lines 22-37): serve the
cache while it is younger than the TTL, otherwise re-read the file and refresh
the cache; a read failure logs and returns the empty config without touching
the cache (the exception skips the assignments). -/
def loadApps (st : StoreState) (now : Nat) : AppConfig × StoreState :=
  match st.appsCache with
  | some c =>
      if now - st.cacheTimestamp < CACHE_TTL then (c, st)
      else
        match st.file with
        | some cfg => (cfg, { st with appsCache := some cfg, cacheTimestamp := now })
        | none => ({ apps := [] }, st)
  | none =>
      match st.file with
      | some cfg => (cfg, { st with appsCache := some cfg, cacheTimestamp := now })
      | none => ({ apps := [] }, st)

/-- Embedding of `saveApps` (src/middleware/appAuth.ts lines 39-47): attempt
the synchronous file write; on success update the file and the cache, on
failure log the error and return with the state unchanged (the catch block
swallows the exception, so the caller proceeds as if the save succeeded). -/
def saveApps (writeOk : Bool) (st : StoreState) (config : AppConfig) (now : Nat) :
    StoreState :=
  if writeOk then { file := some config, appsCache := some config, cacheTimestamp := now }
  else st

/-- Optional arguments of `registerApp` (src/middleware/appAuth.ts). -/
structure RegisterOptions where
  allowedIPs : Option (List String) := none
  allowedDomains : Option (List String) := none
  rateLimit : Option RateLimitCfg := none
  environment : Option Environment := none
  expiresAt : Option Nat := none

/-- App record built by `registerApp` (src/middleware/appAuth.ts lines 68-80),
with its defaults: `rateLimit` falls back to 30 requests per minute and
`environment` to production. -/
def mkRegisteredApp (now : Nat) (name : String) (permissions : Permissions)
    (options : RegisterOptions) (id apiKey : String) : App :=
  { id := id
    name := name
    apiKey := apiKey
    permissions := permissions
    allowedIPs := options.allowedIPs
    allowedDomains := options.allowedDomains
    rateLimit := some (options.rateLimit.getD { windowMs := 60000, maxRequests := 30 })
    createdAt := now
    lastAccess := none
    accessCount := 0
    environment := options.environment.getD Environment.production
    expiresAt := options.expiresAt }

/-- Embedding of `registerApp` (src/middleware/appAuth.ts lines 53-86): load
the config, build the App record with its defaults, store it under the freshly
generated API key, save, and return the App.  The random `id` and `apiKey` are
explicit arguments; `writeOk` is the outcome of the underlying file write.
The App is returned whether or not the save succeeded. -/
def registerApp (writeOk : Bool) (st : StoreState) (now : Nat) (name : String)
    (permissions : Permissions) (options : RegisterOptions) (id apiKey : String) :
    App × StoreState :=
  let (config, st1) := loadApps st now
  let app := mkRegisteredApp now name permissions options id apiKey
  let config' : AppConfig := { apps := setAssoc config.apps apiKey app }
  let st2 := saveApps writeOk st1 config' now
  (app, st2)

/-- Character-list test: the first list is a leading segment of the second. -/
def listLeadEq : List Char → List Char → Bool
  | [], _ => true
  | _ :: _, [] => false
  | a :: as, b :: bs => a = b && listLeadEq as bs

/-- Character-list substring containment (needle, then haystack). -/
def listContains : List Char → List Char → Bool
  | needle, [] => needle.isEmpty
  | needle, h :: hs => listLeadEq needle (h :: hs) || listContains needle hs

/-- JS `hay.includes(needle)` on strings. -/
def strContains (hay needle : String) : Bool := listContains needle.data hay.data

/-- Expiry test of `validateAppKey` (src/middleware/appAuth.ts line 105):
`app.expiresAt && new Date(app.expiresAt) < new Date()`. -/
def isExpired (app : App) (now : Nat) : Bool :=
  match app.expiresAt with
  | some e => decide (e < now)
  | none => false

/-- IP allow-list test of `validateAppKey` (src/middleware/appAuth.ts lines
110-117): with a non-empty `allowedIPs` the resolved client address must be a
member; a missing (or empty, hence falsy) address fails; no list or an empty
list passes. -/
def ipCheck (app : App) (clientIP : Option String) : Bool :=
  match app.allowedIPs with
  | some ips =>
      if ips.length > 0 then
        match clientIP with
        | some ip => ips.contains ip
        | none => false
      else true
  | none => true

/-- Domain allow-list test of `validateAppKey` (src/middleware/appAuth.ts
lines 119-131): with a non-empty `allowedDomains` a present origin must
contain some listed entry as a substring (`origin.includes(domain)`); a
request with no origin (and no referer) skips the check entirely and passes,
in every deployment environment. -/
def domainCheck (app : App) (origin : Option String) : Bool :=
  match app.allowedDomains with
  | some doms =>
      if doms.length > 0 then
        match origin with
        | some o => doms.any (fun d => strContains o d)
        | none => true
      else true
  | none => true

/-- Outcome of the App authentication middleware. -/
inductive AppAuthResult where
  | unauthorized (msg : String)
  | forbidden (msg : String)
  | ok (app : App)
deriving DecidableEq

/-- Embedding of `validateAppKey` (src/middleware/appAuth.ts lines 88-141):
resolve the header key, load the config, look the App up, reject expired keys
with 401, enforce the IP and domain allow-lists with 403, then — only after
those checks — bump `accessCount`, set `lastAccess`, persist via `saveApps`,
and hand the updated App to the next handler.  `hdrKey` is
`req.headers['x-app-key'] || req.headers['x-api-key']` (with `none` for a
missing header), `clientIP` is `req.ip || req.socket.remoteAddress`, `origin`
is `req.headers.origin || req.headers.referer`. -/
def validateAppKey (writeOk : Bool) (st : StoreState) (hdrKey : Option String)
    (clientIP : Option String) (origin : Option String) (now : Nat) :
    AppAuthResult × StoreState :=
  match hdrKey with
  | none => (AppAuthResult.unauthorized "App API key required", st)
  | some apiKey =>
    if apiKey = "" then (AppAuthResult.unauthorized "App API key required", st)
    else
      let (config, st1) := loadApps st now
      match getAssoc config.apps apiKey with
      | none => (AppAuthResult.unauthorized "Invalid app API key", st1)
      | some app =>
        if isExpired app now then
          (AppAuthResult.unauthorized "App API key expired", st1)
        else if ipCheck app clientIP then
          if domainCheck app origin then
            let app' := { app with lastAccess := some now,
                                   accessCount := app.accessCount + 1 }
            let config' : AppConfig := { apps := setAssoc config.apps apiKey app' }
            let st2 := saveApps writeOk st1 config' now
            (AppAuthResult.ok app', st2)
          else (AppAuthResult.forbidden "Access denied from this domain", st1)
        else (AppAuthResult.forbidden "Access denied from this IP", st1)

/-- Requested third-party service. -/
inductive Service where
  | openai
  | anthropic
deriving DecidableEq

/-- Name of the service as interpolated into error messages. -/
def serviceName : Service → String
  | Service.openai => "openai"
  | Service.anthropic => "anthropic"

/-- Permission switch of an App for a service. -/
def permFor (p : Permissions) : Service → Bool
  | Service.openai => p.openai
  | Service.anthropic => p.anthropic

/-- Embedding of `checkAppPermission` (src/middleware/appAuth.ts lines
143-159): `some (status, msg)` is an early rejection, `none` lets the request
continue to the route handler. -/
def checkAppPermission (service : Service) (appData : Option App) :
    Option (Nat × String) :=
  match appData with
  | none => some (401, "App authentication required")
  | some app =>
      if permFor app.permissions service then none
      else some (403, "App does not have permission to access "
                        ++ serviceName service ++ " keys")

/-- Response of a key-release route: an error status with its message, or the
success payload carrying the envelope. -/
inductive RouteResult where
  | err (status : Nat) (msg : String)
  | keyOk (service : Service) (encryptedKey : Envelope)
deriving DecidableEq

/-- Embedding of the per-service App key routes (src/routes/apps.ts lines
10-38 and 40-67, with the router-level `validateAppKey` of line 8): App
authentication, then `checkAppPermission service`, then the handler, which
404s when the service key is unset and otherwise encrypts the service key
under the App's own API key (`encryptKey(serviceKey, app.apiKey)`). -/
def appServiceKeyRoute (service : Service) (prims : CryptoPrims) (writeOk : Bool)
    (st : StoreState) (hdrKey clientIP origin : Option String) (now : Nat)
    (serviceKeyEnv : Option (List Byte)) (salt iv : List Byte) :
    RouteResult × StoreState :=
  match validateAppKey writeOk st hdrKey clientIP origin now with
  | (AppAuthResult.unauthorized m, st') => (RouteResult.err 401 m, st')
  | (AppAuthResult.forbidden m, st') => (RouteResult.err 403 m, st')
  | (AppAuthResult.ok app, st') =>
    match checkAppPermission service (some app) with
    | some (s, m) => (RouteResult.err s m, st')
    | none =>
      match serviceKeyEnv with
      | none => (RouteResult.err 404 (serviceName service ++ " API key not configured"), st')
      | some k =>
          (RouteResult.keyOk service (encryptKey prims k app.apiKey salt iv), st')

/-- Request context attached by the User API-key gate (src/types/index.ts). -/
structure ApiKeyPayload where
  apiKey : String
  userId : String
deriving DecidableEq

/-- Embedding of the per-service User key routes (src/routes/keys.ts lines
77-106 and 108-137): 401 without an attached principal, 404 without the
configured service key, and otherwise an envelope under
`process.env.ENCRYPTION_SECRET || apiKeyData.apiKey` — the global server
secret when that variable is set and non-empty, the caller's API key only as
the fallback. -/
def userKeysRoute (service : Service) (prims : CryptoPrims)
    (apiKeyData : Option ApiKeyPayload) (serviceKeyEnv : Option (List Byte))
    (encryptionSecretEnv : Option String) (salt iv : List Byte) : RouteResult :=
  match apiKeyData with
  | none => RouteResult.err 401 "Unauthorized"
  | some d =>
    match serviceKeyEnv with
    | none => RouteResult.err 404 (serviceName service ++ " API key not configured")
    | some k =>
      let secret :=
        match encryptionSecretEnv with
        | some s => if s = "" then d.apiKey else s
        | none => d.apiKey
      RouteResult.keyOk service (encryptKey prims k secret salt iv)

/-- Outcome of the User API-key gate. -/
inductive UserAuthResult where
  | unauthorized (msg : String)
  | ok (payload : ApiKeyPayload)
deriving DecidableEq

/-- Embedding of `validateApiKey` (src/middleware/auth.ts lines 57-78): reject
a missing or empty `x-api-key` header, parse `VALID_API_KEYS` with `'{}'`
substituted when the variable is unset (`validApiKeysEnv = none`), and accept
exactly the keys mapped to a truthy (non-empty) user id. -/
def validateApiKey (validApiKeysEnv : Option (List (String × String)))
    (hdrKey : Option String) : UserAuthResult :=
  match hdrKey with
  | none => UserAuthResult.unauthorized "API key required"
  | some k =>
    if k = "" then UserAuthResult.unauthorized "API key required"
    else
      let validApiKeys := validApiKeysEnv.getD []
      match getAssoc validApiKeys k with
      | some userId =>
          if userId = "" then UserAuthResult.unauthorized "Invalid API key"
          else UserAuthResult.ok { apiKey := k, userId := userId }
      | none => UserAuthResult.unauthorized "Invalid API key"

/-- User record (src/types/index.ts). -/
structure User where
  id : String
  username : String
  passwordHash : String
  apiKey : String
  createdAt : Nat := 0
  lastAccess : Nat := 0
deriving DecidableEq

/-- Embedding of the mutation performed by `POST /rotate-api-key`
(src/routes/auth.ts lines 123-129) once the credentials have been verified:
delete the user's old key from the `VALID_API_KEYS` mapping, generate a fresh
key (`newKey`, an explicit argument), assign it to the user, and map it to the
user's id. -/
def rotateApiKey (validApiKeys : List (String × String)) (user : User)
    (newKey : String) : List (String × String) × User :=
  let afterDelete := delAssoc validApiKeys user.apiKey
  let afterInsert := setAssoc afterDelete newKey user.id
  (afterInsert, { user with apiKey := newKey })

/-- Embedding of the scan inside `revokeApp` (scripts/manage-apps.ts lines
163-169): walk the entries of `config.apps`, delete the first one whose
`name` matches, and `break`; `none` when no entry matches (the script then
reports not-found and exits). -/
def revokeScan : List (String × App) → String → Option (List (String × App))
  | [], _ => none
  | (k, a) :: rest, n =>
      if a.name = n then some rest
      else (revokeScan rest n).map (fun r => (k, a) :: r)

/-- Embedding of `revokeApp` (scripts/manage-apps.ts lines 158-181) on a
loaded config: the config after the scan, or `none` when the name is absent. -/
def revokeApp (cfg : AppConfig) (name : String) : Option AppConfig :=
  (revokeScan cfg.apps name).map (fun l => { apps := l })

/-- Concrete primitive instance for evaluation: everything constant. -/
def zeroPrims : CryptoPrims :=
  { pbkdf2 := fun _ _ => []
    keystream := fun _ _ _ => 0
    ghash := fun _ _ _ => [0] }

/-- Concrete malformed envelope: every field empty, so the stored tag decodes
to `[]` while `zeroPrims` recomputes `[0]`. -/
def badEnvelope : Envelope := { encrypted := "", salt := "", iv := "", authTag := "" }

/-- Concrete primitive instance whose key derivation distinguishes the server
secret from every other secret, making wrong-secret decryption observable. -/
def cexPrims : CryptoPrims :=
  { pbkdf2 := fun s _ => if s = "server-secret" then [1] else [0]
    keystream := fun _ _ _ => 0
    ghash := fun dk _ _ => dk }

/-- Concrete User principal attached by the API-key gate. -/
def callerPayload : ApiKeyPayload := { apiKey := "ks_caller", userId := "user-1" }

/-- Concrete App: first of two sharing one name. -/
def sharedApp1 : App :=
  { id := "id1", name := "SharedName", apiKey := "key1"
    permissions := { openai := true, anthropic := false } }

/-- Concrete App: second of two sharing one name. -/
def sharedApp2 : App :=
  { id := "id2", name := "SharedName", apiKey := "key2"
    permissions := { openai := true, anthropic := false } }

/-- Concrete store whose durable file holds no Apps and whose cache is cold. -/
def emptyStore : StoreState :=
  { file := some { apps := [] }, appsCache := none, cacheTimestamp := 0 }

/-- Concrete browser App restricted to one domain, deployed as production. -/
def webApp : App :=
  { id := "id6", name := "WebApp", apiKey := "key6"
    permissions := { openai := true, anthropic := false }
    allowedDomains := some ["example.com"]
    environment := Environment.production }

/-- Concrete store holding only `webApp`. -/
def webStore : StoreState :=
  { file := some { apps := [("key6", webApp)] }, appsCache := none, cacheTimestamp := 0 }

/-- Concrete App restricted to one client IP. -/
def ipApp : App :=
  { id := "id7", name := "IpApp", apiKey := "key7"
    permissions := { openai := true, anthropic := true }
    allowedIPs := some ["10.0.0.5"] }

/-- Concrete store holding only `ipApp`. -/
def ipStore : StoreState :=
  { file := some { apps := [("key7", ipApp)] }, appsCache := none, cacheTimestamp := 0 }

/-- Concrete User for the rotation scenario. -/
def demoUser : User :=
  { id := "uid-1", username := "alice", passwordHash := "hash", apiKey := "ks_old" }

/-- The `webApp` record after one authenticated request at time 5. -/
def webAppUpd : App := { webApp with lastAccess := some 5, accessCount := 1 }

/-- The store after `validateAppKey` admits `webApp` at time 5 and persists the
updated stats. -/
def webStoreAfter : StoreState :=
  { file := some { apps := [("key6", webAppUpd)] }
    appsCache := some { apps := [("key6", webAppUpd)] }
    cacheTimestamp := 5 }

/-- The `ipStore` after a cold-cache read at time 5 (file untouched). -/
def ipStoreLoaded : StoreState :=
  { file := some { apps := [("key7", ipApp)] }
    appsCache := some { apps := [("key7", ipApp)] }
    cacheTimestamp := 5 }

/-- Concrete permissions for the registration scenario. -/
def regPerms : Permissions := { openai := true, anthropic := false }

/-- XOR cancels itself on `Nat`. -/
theorem natXor_cancel (p k : Nat) : (p ^^^ k) ^^^ k = p := by
  rw [Nat.xor_assoc, Nat.xor_self, Nat.xor_zero]

/-- XOR cancels itself on bytes. -/
theorem byteXor_cancel (p k : Byte) : byteXor (byteXor p k) k = p := by
  apply Fin.ext
  show (p.val ^^^ k.val) ^^^ k.val = p.val
  exact natXor_cancel _ _

/-- Evaluating `hexVal` on the digit of a bounded value recovers it. -/
theorem hexVal_hexDigit (n : Nat) (h : n < 16) : hexVal (hexDigit n) = some ⟨n, h⟩ := by
  have h16 : ∀ m : Fin 16, hexVal (hexDigit m.val) = some m := by decide
  exact h16 ⟨n, h⟩

/-- Hex parsing inverts hex encoding on byte lists. -/
theorem hexPairs_hexEncodeBytes (l : List Byte) : hexPairs (hexEncodeBytes l) = l := by
  induction l with
  | nil => rfl
  | cons b rest ih =>
    have hb := b.isLt
    have hhi : b.val / 16 < 16 := by omega
    have hlo : b.val % 16 < 16 := by omega
    show hexPairs (hexDigit (b.val / 16) :: hexDigit (b.val % 16) :: hexEncodeBytes rest)
        = b :: rest
    rw [hexPairs, hexVal_hexDigit _ hhi, hexVal_hexDigit _ hlo]
    simp only [ih, List.cons.injEq, and_true]
    apply Fin.ext
    show b.val / 16 * 16 + b.val % 16 = b.val
    omega

/-- Hex decoding inverts hex encoding. -/
theorem hexDecode_hexEncode (l : List Byte) : hexDecode (hexEncode l) = l := by
  show hexPairs (hexEncodeBytes l) = l
  exact hexPairs_hexEncodeBytes l

/-- Applying the same keystream twice restores the input. -/
theorem ctrXor_ctrXor (ks : Nat → Byte) :
    ∀ (i : Nat) (l : List Byte), ctrXor ks i (ctrXor ks i l) = l := by
  intro i l
  induction l generalizing i with
  | nil => rfl
  | cons b rest ih =>
    show byteXor (byteXor b (ks i)) (ks i) :: ctrXor ks (i + 1) (ctrXor ks (i + 1) rest)
        = b :: rest
    rw [byteXor_cancel, ih]

/-- Assignment followed by lookup of the same key yields the assigned value. -/
theorem getAssoc_setAssoc_self {α : Type} (l : List (String × α)) (k : String) (v : α) :
    getAssoc (setAssoc l k v) k = some v := by
  induction l with
  | nil => simp [getAssoc, setAssoc]
  | cons e rest ih =>
    by_cases h : e.1 = k
    · simp [getAssoc, setAssoc, h]
    · simp only [setAssoc]
      rw [if_neg h]
      simpa [getAssoc, List.find?, h] using ih

/-- Assignment leaves lookups of other keys unchanged. -/
theorem getAssoc_setAssoc_ne {α : Type} (l : List (String × α)) (k k' : String) (v : α)
    (h : k' ≠ k) : getAssoc (setAssoc l k v) k' = getAssoc l k' := by
  induction l with
  | nil => simp [getAssoc, setAssoc, List.find?, Ne.symm h]
  | cons e rest ih =>
    by_cases he : e.1 = k
    · subst he
      simp [getAssoc, setAssoc, List.find?, Ne.symm h]
    · simp only [setAssoc]
      rw [if_neg he]
      by_cases he' : e.1 = k'
      · simp [getAssoc, List.find?, he']
      · simpa [getAssoc, List.find?, he'] using ih

/-- Deletion removes a key from lookup. -/
theorem getAssoc_delAssoc_self {α : Type} (l : List (String × α)) (k : String) :
    getAssoc (delAssoc l k) k = none := by
  induction l with
  | nil => rfl
  | cons e rest ih =>
    by_cases h : e.1 = k
    · simp only [delAssoc, List.filter, h]
      simp only [delAssoc] at ih
      simpa using ih
    · simp only [delAssoc, List.filter, h]
      simp only [delAssoc] at ih
      simp only [ne_eq, h, not_false_eq_true, decide_true_eq_true]
      simp only [getAssoc, List.find?, h, decide_false_eq_false]
      exact ih

/-- Reading through the cache never changes the durable file. -/
theorem loadApps_file (st : StoreState) (now : Nat) : (loadApps st now).2.file = st.file := by
  unfold loadApps
  rcases st with ⟨f, c, ts⟩
  cases c with
  | none => cases f <;> rfl
  | some cfg =>
      by_cases h : now - ts < CACHE_TTL
      · simp [h]
      · cases f <;> simp [h]

/-- The scan of `revokeApp` removes exactly the first entry whose App is named
`n`, leaving every earlier and every later entry in place. -/
theorem revokeScan_first (post : List (String × App)) (k : String) (a : App) (n : String)
    (ha : a.name = n) :
    ∀ pre : List (String × App), (∀ e ∈ pre, e.2.name ≠ n) →
      revokeScan (pre ++ (k, a) :: post) n = some (pre ++ post) := by
  intro pre
  induction pre with
  | nil =>
      intro _
      simp [revokeScan, ha]
  | cons e rest ih =>
      intro hpre
      have hne : e.2.name ≠ n := hpre e (by simp)
      have ih' := ih (fun x hx => hpre x (by simp [hx]))
      rcases e with ⟨ek, ea⟩
      simp only [List.cons_append, revokeScan]
      rw [if_neg hne]
      simp only [List.append_eq]
      rw [ih']
      rfl

/-- C2.  For every plaintext `P` and secret `S`, decrypting the envelope
produced by encrypting `P` under `S` with the same secret `S` returns exactly
`P`: the decrypt side re-derives the same key from the envelope's salt, the
recomputed GCM tag matches the stored one, and the CTR stream cancels. -/
theorem claim2_roundtrip (prims : CryptoPrims) (key : List Byte) (secret : String)
    (salt iv : List Byte) :
    decryptKey prims (encryptKey prims key secret salt iv) secret = Except.ok key := by
  simp [encryptKey, decryptKey, hexDecode_hexEncode, ctrXor_ctrXor]

/-- C3.  Decrypt fails closed: for every envelope whose stored `authTag` does
not verify against its ciphertext under the key derived from the supplied
secret, `decryptKey` reports `AuthenticationFailure` — so it never returns any
(possibly altered) plaintext.  Decryption with a wrong secret and bit-flips in
`ciphertext` or `authTag` are the instances of this condition the claim
names. -/
theorem claim3_fail_closed (prims : CryptoPrims) (env : Envelope) (secret : String)
    (h : prims.ghash (prims.pbkdf2 secret (hexDecode env.salt)) (hexDecode env.iv)
           (hexDecode env.encrypted) ≠ hexDecode env.authTag) :
    decryptKey prims env secret = Except.error DecryptError.authenticationFailure := by
  simp only [decryptKey]
  rw [if_neg h]

/-- Witness for C3 at a concrete envelope whose stored tag cannot verify. -/
theorem claim3_fail_closed_witness :
    decryptKey zeroPrims badEnvelope "secret" = Except.error DecryptError.authenticationFailure :=
  claim3_fail_closed zeroPrims badEnvelope "secret" (by decide)

/-- Counterexample to C1.  With `ENCRYPTION_SECRET` set, the User key route
encrypts the service key under that global server secret, not under the
requesting caller's API key: the returned envelope fails to decrypt with the
caller's own credential and decrypts with the server secret instead. -/
theorem claim1_counterexample :
    userKeysRoute Service.openai cexPrims (some callerPayload) (some [7])
        (some "server-secret") [2] [3]
      = RouteResult.keyOk Service.openai (encryptKey cexPrims [7] "server-secret" [2] [3]) ∧
    "server-secret" ≠ callerPayload.apiKey ∧
    decryptKey cexPrims (encryptKey cexPrims [7] "server-secret" [2] [3]) callerPayload.apiKey
      = Except.error DecryptError.authenticationFailure ∧
    decryptKey cexPrims (encryptKey cexPrims [7] "server-secret" [2] [3]) "server-secret"
      = Except.ok [7] := by
  refine ⟨rfl, by decide, rfl, rfl⟩

/-- C1 as amended.  The App flow always encrypts the released key under the
caller's own API key; the User flow does so only when `ENCRYPTION_SECRET` is
unset or empty, and otherwise encrypts under that global server secret. -/
theorem claim1_amended :
    (∀ (service : Service) (prims : CryptoPrims) (writeOk : Bool) (st : StoreState)
       (hdrKey clientIP origin : Option String) (now : Nat) (key salt iv : List Byte)
       (app : App) (st' : StoreState),
       validateAppKey writeOk st hdrKey clientIP origin now = (AppAuthResult.ok app, st') →
       permFor app.permissions service = true →
       appServiceKeyRoute service prims writeOk st hdrKey clientIP origin now (some key) salt iv
         = (RouteResult.keyOk service (encryptKey prims key app.apiKey salt iv), st')) ∧
    (∀ (service : Service) (prims : CryptoPrims) (d : ApiKeyPayload) (key salt iv : List Byte),
       userKeysRoute service prims (some d) (some key) none salt iv
         = RouteResult.keyOk service (encryptKey prims key d.apiKey salt iv)) ∧
    (∀ (service : Service) (prims : CryptoPrims) (d : ApiKeyPayload) (key salt iv : List Byte)
       (s : String), s ≠ "" →
       userKeysRoute service prims (some d) (some key) (some s) salt iv
         = RouteResult.keyOk service (encryptKey prims key s salt iv)) := by
  refine ⟨?_, ?_, ?_⟩
  · intro service prims writeOk st hdrKey clientIP origin now key salt iv app st' hauth hperm
    unfold appServiceKeyRoute
    rw [hauth]
    simp [checkAppPermission, hperm]
  · intro service prims d key salt iv
    rfl
  · intro service prims d key salt iv s hs
    simp [userKeysRoute, hs]

/-- Witness for the amended C1 at concrete requests through both flows. -/
theorem claim1_amended_witness :
    appServiceKeyRoute Service.openai zeroPrims true webStore (some "key6") none none 5
        (some [9]) [1] [2]
      = (RouteResult.keyOk Service.openai (encryptKey zeroPrims [9] webAppUpd.apiKey [1] [2]),
         webStoreAfter) ∧
    userKeysRoute Service.openai zeroPrims (some callerPayload) (some [9]) none [1] [2]
      = RouteResult.keyOk Service.openai (encryptKey zeroPrims [9] callerPayload.apiKey [1] [2]) ∧
    userKeysRoute Service.openai zeroPrims (some callerPayload) (some [9])
        (some "server-secret") [1] [2]
      = RouteResult.keyOk Service.openai (encryptKey zeroPrims [9] "server-secret" [1] [2]) :=
  ⟨claim1_amended.1 Service.openai zeroPrims true webStore (some "key6") none none 5
      [9] [1] [2] webAppUpd webStoreAfter (by decide) (by decide),
   claim1_amended.2.1 Service.openai zeroPrims callerPayload [9] [1] [2],
   claim1_amended.2.2 Service.openai zeroPrims callerPayload [9] [1] [2] "server-secret"
      (by decide)⟩

/-- Counterexample to C4.  With two registered Apps sharing the name
`"SharedName"`, `revokeApp` deletes only the first matching entry (the loop
breaks): the second record with that name survives and its API key still looks
up, so not every record with the name is removed. -/
theorem claim4_counterexample :
    revokeApp { apps := [("key1", sharedApp1), ("key2", sharedApp2)] } "SharedName"
      = some { apps := [("key2", sharedApp2)] } ∧
    sharedApp2.name = "SharedName" ∧
    getAssoc [("key2", sharedApp2)] "key2" = some sharedApp2 := by
  refine ⟨rfl, rfl, rfl⟩

/-- C4 as amended.  `RevokeApp(N)` removes exactly the first App record (in
entry order) whose name equals `N`, leaving all other records — including
later ones also named `N` — in place; when the store's keys are unique, a
lookup of the removed record's API key afterwards returns `NotFound`. -/
theorem claim4_amended (pre post : List (String × App)) (k : String) (a : App) (n : String)
    (hpre : ∀ e ∈ pre, e.2.name ≠ n) (ha : a.name = n)
    (hkey : ∀ e ∈ pre ++ post, e.1 ≠ k) :
    revokeApp { apps := pre ++ (k, a) :: post } n = some { apps := pre ++ post } ∧
    getAssoc (pre ++ post) k = none := by
  constructor
  · have hs := revokeScan_first post k a n ha pre hpre
    simp [revokeApp, hs]
  · have hfind : (pre ++ post).find? (fun e => e.1 = k) = none := by
      rw [List.find?_eq_none]
      intro x hx
      simp [hkey x hx]
    simp [getAssoc, hfind]

/-- Witness for the amended C4: revoking the shared name removes the first
record, keeps the second, and retires the first record's key. -/
theorem claim4_amended_witness :
    revokeApp { apps := [] ++ ("key1", sharedApp1) :: [("key2", sharedApp2)] } "SharedName"
      = some { apps := [] ++ [("key2", sharedApp2)] } ∧
    getAssoc ([] ++ [("key2", sharedApp2)]) "key1" = none :=
  claim4_amended [] [("key2", sharedApp2)] "key1" sharedApp1 "SharedName"
    (by intro e he; simp at he) rfl
    (by intro e he; simp at he; rw [he]; decide)

/-- Counterexample to C5.  When the durable write fails, `saveApps` swallows
the error, so `registerApp` still returns the freshly built App — reporting
success — while the durable file still holds the old (empty) registry. -/
theorem claim5_counterexample :
    (registerApp false emptyStore 5 "MyApp" regPerms {} "appid-1" "app_k1").1
      = mkRegisteredApp 5 "MyApp" regPerms {} "appid-1" "app_k1" ∧
    (registerApp false emptyStore 5 "MyApp" regPerms {} "appid-1" "app_k1").2.file
      = some { apps := [] } := by
  refine ⟨rfl, rfl⟩

/-- C5 as amended.  `registerApp` attempts the persistence write synchronously
before returning and, when the write succeeds, the durable file holds the new
record at return time; but a failed write is logged and swallowed: the
operation still returns the new App (acknowledging success) with the durable
state unchanged. -/
theorem claim5_amended (writeOk : Bool) (st : StoreState) (now : Nat) (name : String)
    (permissions : Permissions) (options : RegisterOptions) (id apiKey : String) :
    (registerApp writeOk st now name permissions options id apiKey).1
      = mkRegisteredApp now name permissions options id apiKey ∧
    (writeOk = true →
      (registerApp writeOk st now name permissions options id apiKey).2.file
        = some { apps := setAssoc (loadApps st now).1.apps apiKey
                   (mkRegisteredApp now name permissions options id apiKey) }) ∧
    (writeOk = false →
      (registerApp writeOk st now name permissions options id apiKey).2.file = st.file) := by
  refine ⟨?_, ?_, ?_⟩
  · cases hw : writeOk <;> simp [registerApp, saveApps]
  · intro hw
    subst hw
    simp [registerApp, saveApps]
  · intro hw
    subst hw
    simp [registerApp, saveApps, loadApps_file]

/-- Witness for the amended C5 at a concrete registration against the empty
store, with the write succeeding. -/
theorem claim5_amended_witness :
    (registerApp true emptyStore 5 "MyApp" regPerms {} "appid-1" "app_k1").1
      = mkRegisteredApp 5 "MyApp" regPerms {} "appid-1" "app_k1" ∧
    (true = true →
      (registerApp true emptyStore 5 "MyApp" regPerms {} "appid-1" "app_k1").2.file
        = some { apps := setAssoc (loadApps emptyStore 5).1.apps "app_k1"
                   (mkRegisteredApp 5 "MyApp" regPerms {} "appid-1" "app_k1") }) ∧
    (true = false →
      (registerApp true emptyStore 5 "MyApp" regPerms {} "appid-1" "app_k1").2.file
        = emptyStore.file) :=
  claim5_amended true emptyStore 5 "MyApp" regPerms {} "appid-1" "app_k1"

/-- Counterexample to C6.  `webApp` has a non-empty domain allow-list and is a
production deployment, yet a request carrying no origin header is admitted by
`validateAppKey` (the App path has no production-strict rejection of
origin-less requests; that behaviour exists only in the unmounted
`validateRequestOrigin` middleware). -/
theorem claim6_counterexample :
    webApp.allowedDomains = some ["example.com"] ∧
    webApp.environment = Environment.production ∧
    validateAppKey true webStore (some "key6") none none 5
      = (AppAuthResult.ok webAppUpd, webStoreAfter) := by
  refine ⟨rfl, rfl, rfl⟩

/-- C6 as amended.  For an App with a non-empty `allowedDomains` list: a
request carrying an origin passes the domain check iff the origin contains
some listed entry as a substring, and a request carrying no origin header is
always permitted to pass the App domain check, in every deployment mode. -/
theorem claim6_amended (app : App) (doms : List String)
    (h1 : app.allowedDomains = some doms) (h2 : 0 < doms.length) :
    (∀ o : String, domainCheck app (some o) = true ↔ ∃ d ∈ doms, strContains o d = true) ∧
    domainCheck app none = true := by
  constructor
  · intro o
    simp [domainCheck, h1, h2, List.any_eq_true]
  · simp [domainCheck, h1, h2]

/-- Witness for the amended C6 on `webApp`: a matching origin passes, a
foreign one fails, and an absent origin passes. -/
theorem claim6_amended_witness :
    domainCheck webApp (some "https://example.com") = true ∧
    domainCheck webApp (some "https://evil.org") = false ∧
    domainCheck webApp none = true := by
  have h := claim6_amended webApp ["example.com"] rfl (by decide)
  refine ⟨?_, ?_, h.2⟩
  · exact (h.1 "https://example.com").mpr ⟨"example.com", by decide, by decide⟩
  · by_contra hc
    simp only [Bool.not_eq_false] at hc
    have := (h.1 "https://evil.org").mp hc
    revert this
    decide

/-- Counterexample to C7.  A request with a valid, unexpired App key — hence
one that reaches the authenticated state — is rejected by the IP allow-list
check, and the App's `accessCount` is neither incremented nor persisted: the
access-stats update does not happen before the authorization checks. -/
theorem claim7_counterexample :
    ipApp.expiresAt = none ∧
    ipApp.accessCount = 0 ∧
    validateAppKey true ipStore (some "key7") (some "10.0.0.9") none 5
      = (AppAuthResult.forbidden "Access denied from this IP", ipStoreLoaded) ∧
    ipStoreLoaded.file = some { apps := [("key7", ipApp)] } := by
  refine ⟨rfl, rfl, rfl, rfl⟩

/-- C7 as amended.  On a request with a valid, unexpired App key, the access
stats (`accessCount + 1`, `lastAccess := now`) are updated and persisted only
after the IP and domain restriction checks pass, and before the service
permission is evaluated: a request later refused by `checkAppPermission` still
has the update persisted, while a request refused by the IP or domain check
leaves the store untouched. -/
theorem claim7_amended (writeOk : Bool) (st : StoreState) (k : String)
    (clientIP origin : Option String) (now : Nat) (app : App)
    (hk : k ≠ "")
    (happ : getAssoc (loadApps st now).1.apps k = some app)
    (hexp : isExpired app now = false) :
    (ipCheck app clientIP = true → domainCheck app origin = true →
       validateAppKey writeOk st (some k) clientIP origin now
         = (AppAuthResult.ok
              { app with lastAccess := some now, accessCount := app.accessCount + 1 },
            saveApps writeOk (loadApps st now).2
              { apps := setAssoc (loadApps st now).1.apps k
                  { app with lastAccess := some now, accessCount := app.accessCount + 1 } }
              now)) ∧
    (ipCheck app clientIP = false →
       validateAppKey writeOk st (some k) clientIP origin now
         = (AppAuthResult.forbidden "Access denied from this IP", (loadApps st now).2)) ∧
    (ipCheck app clientIP = true → domainCheck app origin = false →
       validateAppKey writeOk st (some k) clientIP origin now
         = (AppAuthResult.forbidden "Access denied from this domain", (loadApps st now).2)) ∧
    (∀ (service : Service) (prims : CryptoPrims) (serviceKeyEnv : Option (List Byte))
       (salt iv : List Byte),
       ipCheck app clientIP = true → domainCheck app origin = true →
       permFor app.permissions service = false →
       appServiceKeyRoute service prims writeOk st (some k) clientIP origin now
           serviceKeyEnv salt iv
         = (RouteResult.err 403
              ("App does not have permission to access " ++ serviceName service ++ " keys"),
            saveApps writeOk (loadApps st now).2
              { apps := setAssoc (loadApps st now).1.apps k
                  { app with lastAccess := some now, accessCount := app.accessCount + 1 } }
              now)) := by
  have hok : ∀ hip : ipCheck app clientIP = true, ∀ hdom : domainCheck app origin = true,
      validateAppKey writeOk st (some k) clientIP origin now
        = (AppAuthResult.ok
             { app with lastAccess := some now, accessCount := app.accessCount + 1 },
           saveApps writeOk (loadApps st now).2
             { apps := setAssoc (loadApps st now).1.apps k
                 { app with lastAccess := some now, accessCount := app.accessCount + 1 } }
             now) := by
    intro hip hdom
    simp [validateAppKey, hk, happ, hexp, hip, hdom]
  refine ⟨hok, ?_, ?_, ?_⟩
  · intro hip
    simp [validateAppKey, hk, happ, hexp, hip]
  · intro hip hdom
    simp [validateAppKey, hk, happ, hexp, hip, hdom]
  · intro service prims serviceKeyEnv salt iv hip hdom hperm
    unfold appServiceKeyRoute
    rw [hok hip hdom]
    simp [checkAppPermission, hperm]

/-- Witness for the amended C7: the concrete IP-restricted request from a
foreign address is refused with the store untouched. -/
theorem claim7_amended_witness :
    validateAppKey true ipStore (some "key7") (some "10.0.0.9") none 5
      = (AppAuthResult.forbidden "Access denied from this IP", (loadApps ipStore 5).2) :=
  (claim7_amended true ipStore "key7" (some "10.0.0.9") none 5 ipApp
      (by decide) (by decide) (by decide)).2.1 (by decide)

/-- C8.  After the rotation mutation of `POST /rotate-api-key`, the old API
key is gone from the `VALID_API_KEYS` mapping, so the gate rejects it with
`Invalid API key`, while the returned new key authenticates and resolves to
the same user id. -/
theorem claim8_rotation (env : List (String × String)) (user : User) (newKey : String)
    (hold : user.apiKey ≠ "") (hnew : newKey ≠ "") (hid : user.id ≠ "")
    (hne : newKey ≠ user.apiKey) :
    validateApiKey (some (rotateApiKey env user newKey).1) (some user.apiKey)
      = UserAuthResult.unauthorized "Invalid API key" ∧
    validateApiKey (some (rotateApiKey env user newKey).1) (some newKey)
      = UserAuthResult.ok { apiKey := newKey, userId := user.id } ∧
    (rotateApiKey env user newKey).2.id = user.id := by
  refine ⟨?_, ?_, rfl⟩
  · have hlook : getAssoc (setAssoc (delAssoc env user.apiKey) newKey user.id) user.apiKey
        = none := by
      rw [getAssoc_setAssoc_ne _ _ _ _ (Ne.symm hne)]
      exact getAssoc_delAssoc_self env user.apiKey
    simp [validateApiKey, rotateApiKey, hold, hlook]
  · have hlook : getAssoc (setAssoc (delAssoc env user.apiKey) newKey user.id) newKey
        = some user.id :=
      getAssoc_setAssoc_self _ _ _
    simp [validateApiKey, rotateApiKey, hnew, hid, hlook]

/-- Witness for C8 at a concrete user and mapping. -/
theorem claim8_rotation_witness :
    validateApiKey (some (rotateApiKey [("ks_old", "uid-1")] demoUser "ks_new").1)
        (some demoUser.apiKey)
      = UserAuthResult.unauthorized "Invalid API key" ∧
    validateApiKey (some (rotateApiKey [("ks_old", "uid-1")] demoUser "ks_new").1)
        (some "ks_new")
      = UserAuthResult.ok { apiKey := "ks_new", userId := demoUser.id } ∧
    (rotateApiKey [("ks_old", "uid-1")] demoUser "ks_new").2.id = demoUser.id :=
  claim8_rotation [("ks_old", "uid-1")] demoUser "ks_new"
    (by decide) (by decide) (by decide) (by decide)

/-- C9.  Any request that passes App authentication but whose App has
`permissions.anthropic = false` is answered 403 Forbidden by the per-service
Anthropic route, for every combination of the remaining request parameters
(IP, origin, expiry and rate limits notwithstanding). -/
theorem claim9_forbidden (prims : CryptoPrims) (writeOk : Bool) (st : StoreState)
    (hdrKey clientIP origin : Option String) (now : Nat)
    (serviceKeyEnv : Option (List Byte)) (salt iv : List Byte) (app : App) (st' : StoreState)
    (hauth : validateAppKey writeOk st hdrKey clientIP origin now
               = (AppAuthResult.ok app, st'))
    (hperm : app.permissions.anthropic = false) :
    appServiceKeyRoute Service.anthropic prims writeOk st hdrKey clientIP origin now
        serviceKeyEnv salt iv
      = (RouteResult.err 403 "App does not have permission to access anthropic keys", st') := by
  unfold appServiceKeyRoute
  rw [hauth]
  simp [checkAppPermission, permFor, hperm, serviceName]

/-- Witness for C9: `webApp` (no Anthropic permission) authenticates but is
refused the Anthropic key. -/
theorem claim9_forbidden_witness :
    appServiceKeyRoute Service.anthropic zeroPrims true webStore (some "key6") none none 5
        (some [9]) [1] [2]
      = (RouteResult.err 403 "App does not have permission to access anthropic keys",
         webStoreAfter) :=
  claim9_forbidden zeroPrims true webStore (some "key6") none none 5 (some [9]) [1] [2]
    webAppUpd webStoreAfter rfl rfl

/-- C10.  For a presented (non-empty) key, the User gate authenticates iff the
JSON mapping parsed from `VALID_API_KEYS` holds the key with a truthy value,
and then resolves to that mapped user id; with a falsy or absent value — and
in particular whenever `VALID_API_KEYS` is unset and therefore read as the
empty mapping — the gate answers 401 `Invalid API key` (the total function
never crashes). -/
theorem claim10_gate (mEnv : Option (List (String × String))) (k : String) (hk : k ≠ "") :
    (validateApiKey mEnv (some k)
        = UserAuthResult.ok { apiKey := k, userId := (getAssoc (mEnv.getD []) k).getD "" }
      ↔ (getAssoc (mEnv.getD []) k).getD "" ≠ "") ∧
    ((getAssoc (mEnv.getD []) k).getD "" = "" →
       validateApiKey mEnv (some k) = UserAuthResult.unauthorized "Invalid API key") ∧
    (mEnv = none →
       validateApiKey mEnv (some k) = UserAuthResult.unauthorized "Invalid API key") := by
  refine ⟨?_, ?_, ?_⟩
  · cases hlook : getAssoc (mEnv.getD []) k with
    | none => simp [validateApiKey, hk, hlook]
    | some uid =>
        by_cases hu : uid = ""
        · subst hu
          simp [validateApiKey, hk, hlook]
        · simp [validateApiKey, hk, hlook, hu]
  · intro hfalsy
    cases hlook : getAssoc (mEnv.getD []) k with
    | none => simp [validateApiKey, hk, hlook]
    | some uid =>
        rw [hlook] at hfalsy
        simp only [Option.getD] at hfalsy
        simp [validateApiKey, hk, hlook, hfalsy]
  · intro hnone
    subst hnone
    simp [validateApiKey, hk, getAssoc]

/-- Witness for C10 with the variable unset and a concrete presented key. -/
theorem claim10_gate_witness :
    (validateApiKey none (some "ks_x")
        = UserAuthResult.ok { apiKey := "ks_x", userId := (getAssoc ([] : List (String × String)) "ks_x").getD "" }
      ↔ (getAssoc ([] : List (String × String)) "ks_x").getD "" ≠ "") ∧
    ((getAssoc ([] : List (String × String)) "ks_x").getD "" = "" →
       validateApiKey none (some "ks_x") = UserAuthResult.unauthorized "Invalid API key") ∧
    ((none : Option (List (String × String))) = none →
       validateApiKey none (some "ks_x") = UserAuthResult.unauthorized "Invalid API key") :=
  claim10_gate none "ks_x" (by decide)

end KeyServer
